import Mathlib

/-!
# Verification of the pdf-qa-bot retrieval engine

Shallow embedding of `backend/app/retriever.py` (class `VectorStore`) and
`backend/app/indexer.py` (class `Indexer`), with theorems checking the
specification's claims about candidate retrieval, MMR selection,
hierarchical filtering, build persistence and error handling.

Modelling conventions:
* float arithmetic is modelled exactly over `ℚ`;
* the embedding provider (`SentenceTransformer.encode` composed with
  `_normalize`) is an external collaborator and is modelled as an oracle
  that supplies the already-normalized embedding vectors (deterministic,
  so the vectors stored at build time and the vectors re-encoded at MMR
  time for the same texts coincide);
* the FAISS flat inner-product index is modelled exactly: scores are
  inner products, results are sorted by descending score with ties broken
  by lowest row index;
* files on disk are modelled as an explicit record of optional artifact
  contents, and Python exceptions as `Except` values.
-/

namespace PdfQa

/-- An embedding vector: a row of floats, modelled over `ℚ`. -/
abbrev Vec := List ℚ

/-- Inner product of two vectors (`numpy` `@` on equal-length rows). -/
def dot (u v : Vec) : ℚ := (List.zipWith (· * ·) u v).sum

/-- Squared L2 norm of a vector. -/
def normSq (v : Vec) : ℚ := dot v v

/-- Componentwise difference of two vectors. -/
def vsub (u v : Vec) : Vec := List.zipWith (· - ·) u v

/-- Componentwise mean of two rows: `np.stack([u, v]).mean(axis=0)`,
which is how `search_advanced` combines the query embedding with the
HyDE embedding (retriever.py line 217). -/
def mean2 (u v : Vec) : Vec := List.zipWith (fun a b => (a + b) / 2) u v

/-- `np.argmax` helper: scan the remaining list, keeping the index of the
first occurrence of the strictly largest value seen so far.  `bi`/`bv` are
the best index and value so far, `i` the index of the list head. -/
def npArgmaxGo (bi : ℕ) (bv : ℚ) (i : ℕ) : List ℚ → ℕ
  | [] => bi
  | x :: xs => if bv < x then npArgmaxGo i x (i + 1) xs else npArgmaxGo bi bv (i + 1) xs

/-- `np.argmax`: index of the first occurrence of the maximum value
(numpy returns 0 on an empty array only after erroring; the loop guards
ensure the argument is never empty in the code). -/
def npArgmax : List ℚ → ℕ
  | [] => 0
  | x :: xs => npArgmaxGo 0 x 1 xs

/-- `np.max` over a row (`diversity.max(axis=1)` acts on nonempty rows). -/
def maxList : List ℚ → ℚ
  | [] => 0
  | x :: xs => xs.foldl max x

/-- Python `list.index`: position of the first occurrence (only called
under an `in` guard in the source). -/
def pyIndex (x : ℕ) : List ℕ → ℕ
  | [] => 0
  | y :: ys => if y = x then 0 else pyIndex x ys + 1

/-- Boolean check that a score list is nonincreasing (the order in which
the flat index returns candidate scores). -/
def nonIncr : List ℚ → Bool
  | [] => true
  | [_] => true
  | a :: b :: t => decide (b ≤ a) && nonIncr (b :: t)

/-- Boolean check that each candidate's stored relevance score equals the
inner product of its (re-encoded) vector with the query vector — true for
pools produced by the flat inner-product index, since the stored rows and
the re-encoded candidate vectors come from the same deterministic
encoder. -/
def scoresMatch : List (ℕ × ℚ) → List Vec → Vec → Bool
  | [], [], _ => true
  | c :: cs, v :: vs, q => decide (c.2 = dot v q) && scoresMatch cs vs q
  | _, _, _ => false

/-- The mutable state of the MMR selection loop in `VectorStore.search`
and `VectorStore.search_advanced` (retriever.py lines 140-169 and
245-273; the two loops are textually identical). -/
structure MMRState where
  selected : List ℕ
  selectedScores : List ℚ
  candidates : List (ℕ × ℚ)
  candIdxs : List ℕ
  candVecs : List Vec
deriving DecidableEq

/-- One iteration of the MMR `while` loop body (retriever.py lines
147-169).  `candidates` holds `(global_row, index_score)` pairs,
`candIdxs` and `candVecs` are the parallel lists the code keeps. -/
def mmrStep (q : Vec) (lam : ℚ) (st : MMRState) : MMRState :=
  if st.selected = [] then
    -- first pick: argmax over the raw index scores
    let best := npArgmax (st.candidates.map Prod.snd)
    { selected := st.selected ++ [(st.candidates.getD best (0, 0)).1]
      selectedScores := st.selectedScores ++ [(st.candidates.getD best (0, 0)).2]
      candidates := st.candidates.eraseIdx best
      candIdxs := st.candIdxs.eraseIdx best
      candVecs := st.candVecs.eraseIdx best }
  else
    -- selected_vecs = cand_vecs[[cand_idxs.index(si) for si in selected if si in cand_idxs]]
    let selectedVecs :=
      (st.selected.filter (fun si => decide (si ∈ st.candIdxs))).map
        (fun si => st.candVecs.getD (pyIndex si st.candIdxs) [])
    let simToQuery := st.candVecs.map (fun v => dot v q)
    let diversity :=
      if selectedVecs = [] then List.replicate st.candIdxs.length (0 : ℚ)
      else st.candVecs.map (fun v => maxList (selectedVecs.map (fun sv => dot v sv)))
    let mmr := List.zipWith (fun s d => lam * s + (1 - lam) * (1 - d)) simToQuery diversity
    let pos := npArgmax mmr
    { selected := st.selected ++ [st.candIdxs.getD pos 0]
      selectedScores := st.selectedScores ++ [(st.candidates.getD pos (0, 0)).2]
      candidates := st.candidates.eraseIdx pos
      candIdxs := st.candIdxs.eraseIdx pos
      candVecs := st.candVecs.eraseIdx pos }

/-- The MMR `while` loop: runs while
`len(selected) < min(top_k, len(candidates)) and cand_idxs`, where
`candidates` is the *current* (shrinking) pool.  Fuel `topK` suffices:
each iteration grows `selected` by one and the guard requires
`selected.length < topK`. -/
def mmrLoop (q : Vec) (lam : ℚ) (topK : ℕ) : ℕ → MMRState → MMRState
  | 0, st => st
  | fuel + 1, st =>
    if st.selected.length < min topK st.candidates.length ∧ st.candIdxs ≠ [] then
      mmrLoop q lam topK fuel (mmrStep q lam st)
    else st

/-- MMR selection as performed by `VectorStore.search` /
`VectorStore.search_advanced` on a candidate pool: `cands` are the
`(global_row, score)` pairs, `vecs` the re-encoded candidate vectors
(row-aligned with `cands`). -/
def mmrSelect (cands : List (ℕ × ℚ)) (vecs : List Vec) (q : Vec) (lam : ℚ) (topK : ℕ) :
    MMRState :=
  mmrLoop q lam topK topK
    { selected := [], selectedScores := [], candidates := cands
      candIdxs := cands.map Prod.fst, candVecs := vecs }

/-! ## Candidate retrieval (flat index search and oversampling) -/

/-- Insert a `(row, score)` pair into a list sorted by descending score,
ties broken by lowest row index. -/
def insertDesc (p : ℤ × ℚ) : List (ℤ × ℚ) → List (ℤ × ℚ)
  | [] => [p]
  | x :: xs =>
    if x.2 < p.2 ∨ (p.2 = x.2 ∧ p.1 ≤ x.1) then p :: x :: xs
    else x :: insertDesc p xs

/-- Sort `(row, score)` pairs by descending score, ties by lowest row. -/
def sortDesc : List (ℤ × ℚ) → List (ℤ × ℚ)
  | [] => []
  | x :: xs => insertDesc x (sortDesc xs)

/-- `faiss.IndexFlatIP.search`: exact maximum-inner-product search over
the stored rows; returns the top `k` `(row, score)` pairs by descending
inner product, ties broken by lowest row index.  The caller always clamps
`k` to the index size, so no `-1` padding rows are produced here. -/
def indexSearch (stored : List Vec) (q : Vec) (k : ℕ) : List (ℤ × ℚ) :=
  (sortDesc ((List.range stored.length).map
    (fun i => (Int.ofNat i, dot (stored.getD i []) q)))).take k

/-- `candidates = [(int(i), float(s)) for i, s in zip(idxs, scores) if i != -1]`
(retriever.py lines 137 and 238): drop sentinel "not found" rows. -/
def dropSentinel (rows : List (ℤ × ℚ)) : List (ℕ × ℚ) :=
  (rows.filter (fun r => r.1 ≠ -1)).map (fun r => (r.1.toNat, r.2))

/-- Number of rows `VectorStore.search` requests from the index
(line 131): `min(max(top_k * 4, mmr_candidates), ntotal)`. -/
def requestedKSimple (topK mmrCands ntotal : ℕ) : ℕ :=
  min (max (topK * 4) mmrCands) ntotal

/-- Number of rows `VectorStore.search_advanced` requests from the index
(line 221): `min(max(top_k * 8, mmr_candidates * 2), ntotal)`. -/
def requestedKAdvanced (topK mmrCands ntotal : ℕ) : ℕ :=
  min (max (topK * 8) (mmrCands * 2)) ntotal

/-- The request size for advanced search as the specification words it
("factor 8 for hierarchical/HyDE-enriched search" with "the same tunable
floor", i.e. `mmr_candidates`).  Written from the spec, to be compared
with `requestedKAdvanced`, which is written from the source. -/
def specKAdvanced (topK mmrCands ntotal : ℕ) : ℕ :=
  min (max (topK * 8) mmrCands) ntotal

/-- The candidate-retrieval + MMR core of `VectorStore.search`
(lines 131-169), for a loaded index `stored`: request
`requestedKSimple` rows, drop sentinels, then run MMR selection.  The
re-encoded candidate vectors are the stored rows of the candidates
(deterministic encoder, row alignment invariant). -/
def searchPipeline (stored : List Vec) (q : Vec) (topK : ℕ) (lam : ℚ) (mmrCands : ℕ) :
    MMRState :=
  let cands := dropSentinel (indexSearch stored q (requestedKSimple topK mmrCands stored.length))
  mmrSelect cands (cands.map (fun p => stored.getD p.1 [])) q lam topK

/-! ## Hierarchical filter (`search_advanced`, lines 239-242) -/

/-- A chunk record as persisted in `store.jsonl` (the fields the
retrieval core reads). -/
structure Chunk where
  id : String
  text : String
  section_id : Option String
deriving DecidableEq

/-- Default chunk for out-of-range `store[i]` access (never hit for
indices produced by the index over the same store). -/
def dfltChunk : Chunk := { id := "", text := "", section_id := none }

/-- `store[i].get("section_id") in allowed_sections` for one candidate. -/
def sectionOk (store : List Chunk) (allowed : List String) (p : ℕ × ℚ) : Bool :=
  match (store.getD p.1 dfltChunk).section_id with
  | some s => decide (s ∈ allowed)
  | none => false

/-- `filtered = [(i, s) for (i, s) in candidates if store[i].get("section_id") in allowed_sections]`. -/
def hierFiltered (store : List Chunk) (allowed : List String) (cands : List (ℕ × ℚ)) :
    List (ℕ × ℚ) :=
  cands.filter (sectionOk store allowed)

/-- The hierarchical filtering step of `search_advanced` (lines 239-242):
if the allowed-section set is truthy, keep the filtered candidates only
when at least `max(top_k * 2, mmr_candidates)` of them survive, else fall
back to the unfiltered pool.  An empty `allowed` models a falsy
(`None` or empty) `allowed_sections`. -/
def hierFilter (cands : List (ℕ × ℚ)) (store : List Chunk) (allowed : List String)
    (topK mmrCands : ℕ) : List (ℕ × ℚ) :=
  if allowed = [] then cands
  else if max (topK * 2) mmrCands ≤ (hierFiltered store allowed cands).length then
    hierFiltered store allowed cands
  else cands

/-- The candidate-retrieval + filter + MMR core of
`VectorStore.search_advanced` (lines 221-273), for a loaded index and an
already-computed query vector `qVec` and allowed-section set. -/
def searchAdvancedPipeline (stored : List Vec) (store : List Chunk) (qVec : Vec)
    (topK mmrCands : ℕ) (lam : ℚ) (allowed : List String) : MMRState :=
  let cands := dropSentinel
    (indexSearch stored qVec (requestedKAdvanced topK mmrCands stored.length))
  let cands := hierFilter cands store allowed topK mmrCands
  mmrSelect cands (cands.map (fun p => stored.getD p.1 [])) qVec lam topK

/-- The HyDE-enriched query vector of `search_advanced` (line 217):
`self._encode_query([query, hyde]).mean(axis=0, keepdims=True)` — the
componentwise mean of the two individually normalized embeddings, with no
re-normalization afterwards. -/
def hydeQueryVec (qEmb hydeEmb : Vec) : Vec := mean2 qEmb hydeEmb

/-! ## Persistence model: build, load, search (retriever.py lines 55-108) -/

/-- A section record as persisted in `store_sections.jsonl`. -/
structure SectionRec where
  id : String
  text : String
deriving DecidableEq

/-- The metadata record written by `build` (lines 84-98; the dict-merge
with any pre-existing `meta.json` replaces exactly these keys, and the
absolute-path entries are not modelled). -/
structure MetaRec where
  embeddings : ℕ
  embedding_model : String
  sections_embedded : ℕ
deriving DecidableEq

/-- The on-disk artifacts in the storage directory.  `none` means the
file does not exist. -/
structure FS where
  chunksFile : Option (List Chunk)
  sectionsFile : Option (List SectionRec)
  indexFile : Option (List Vec)
  storeFile : Option (List Chunk)
  sIndexFile : Option (List Vec)
  sStoreFile : Option (List SectionRec)
  metaFile : Option MetaRec
deriving DecidableEq

/-- A storage directory with no files at all. -/
def fsNone : FS :=
  { chunksFile := none, sectionsFile := none, indexFile := none, storeFile := none
    sIndexFile := none, sStoreFile := none, metaFile := none }

namespace VectorStore

/-- `VectorStore.build` (lines 55-100).  The embedding provider is an
oracle: `embChunks` is the outcome of encoding the chunk texts,
`embSections` of encoding the section texts (each `Except.error e`
models the provider raising).  Writes happen in source order, directly
at the final paths: chunk index (line 63), chunk store (lines 66-68),
then — only if sections exist — section index and store (lines 71-81),
then metadata (lines 83-98).  A raise aborts the remaining statements,
leaving the files written so far in place.  Returns the possibly-mutated
file system together with the call's outcome. -/
def build (modelName : String) (embChunks embSections : Except String (List Vec))
    (fs : FS) : FS × Except String ℕ :=
  match fs.chunksFile with
  | none => (fs, Except.error "chunks.jsonl not found; run ingestion first")
  | some chunks =>
    match embChunks with
    | Except.error e => (fs, Except.error e)
    | Except.ok emb =>
      let fs1 : FS := { fs with indexFile := some emb, storeFile := some chunks }
      let sections := fs.sectionsFile.getD []
      if sections.isEmpty then
        let meta : MetaRec :=
          { embeddings := chunks.length, embedding_model := modelName
            sections_embedded := 0 }
        (({ fs1 with metaFile := some meta } : FS), Except.ok chunks.length)
      else
        match embSections with
        | Except.error e => (fs1, Except.error e)
        | Except.ok semb =>
          let fs2 : FS := { fs1 with sIndexFile := some semb, sStoreFile := some sections }
          let meta : MetaRec :=
            { embeddings := chunks.length, embedding_model := modelName
              sections_embedded := sections.length }
          (({ fs2 with metaFile := some meta } : FS), Except.ok chunks.length)

/-- `VectorStore._ensure_loaded` for the chunk index (lines 102-106):
return route of the cached in-memory index if present, otherwise read the
index file, raising `FileNotFoundError` when it does not exist.  (The
section index part, lines 107-108, is best-effort and raises nothing.)
No property of the loaded index — in particular not its dimension — is
inspected. -/
def ensureLoaded (cached : Option (List Vec)) (fs : FS) : Except String (List Vec) :=
  match cached with
  | some idx => Except.ok idx
  | none =>
    match fs.indexFile with
    | none => Except.error "FAISS index missing; build the index first"
    | some idx => Except.ok idx

/-- `VectorStore.search` (lines 125-198) as an operation on the persisted
state: load (or reuse) the index, then run the retrieval pipeline.  The
result models the selected `(row, score)` pairs from which the result
records are built by store-row alignment; the optional cross-encoder
rerank (lines 185-196) is disabled in the default configuration and not
modelled. -/
def search (cached : Option (List Vec)) (fs : FS) (q : Vec) (topK mmrCands : ℕ)
    (lam : ℚ) : Except String (List (ℕ × ℚ)) :=
  match ensureLoaded cached fs with
  | Except.error e => Except.error e
  | Except.ok stored =>
    let st := searchPipeline stored q topK lam mmrCands
    Except.ok (st.selected.zip st.selectedScores)

end VectorStore

/-! ## Indexer (indexer.py lines 30-76) -/

/-- The indexer status values (indexer.py line 15). -/
inductive IStatus where
  | idle
  | indexing
  | ready
  | error
deriving DecidableEq

/-- Keyword parameters accepted by `VectorStore.build` beyond `self`:
its signature is `def build(self)` (retriever.py line 55). -/
def buildKwParams : List String := []

/-- Keyword arguments `Indexer._run` passes to `vs.build` (indexer.py
line 56: `vs.build(progress_cb=cb)`). -/
def runBuildCallKwargs : List String := ["progress_cb"]

/-- Python call compatibility: a call is accepted only when every keyword
argument names a parameter of the callee; otherwise it raises
`TypeError`. -/
def callAccepted (call sig : List String) : Bool :=
  call.all (fun k => sig.contains k)

namespace Indexer

/-- `Indexer._run` (indexer.py lines 30-60): ingest, then call
`vs.build(progress_cb=cb)` inside `try`, setting status `ready` on
success; any exception — including the `TypeError` from an unaccepted
keyword call — is caught and sets status `error`.  `ingestResult` and
`buildResult` are oracles for the outcomes of ingestion and of the build
body itself (the latter is only reached if the call is accepted). -/
def run (ingestResult : Except String Unit) (buildResult : Except String ℕ) : IStatus :=
  match ingestResult with
  | Except.error _ => IStatus.error
  | Except.ok _ =>
    if callAccepted runBuildCallKwargs buildKwParams then
      match buildResult with
      | Except.ok _ => IStatus.ready
      | Except.error _ => IStatus.error
    else IStatus.error

/-- The eventual status after `Indexer.start` (indexer.py lines 62-76):
if the index file already exists, status is set to `ready` without
building; otherwise the background thread runs `_run` to completion. -/
def startFinal (indexFileExists : Bool) (ingestResult : Except String Unit)
    (buildResult : Except String ℕ) : IStatus :=
  if indexFileExists then IStatus.ready else run ingestResult buildResult

end Indexer

/-! ## Concrete scenario data (spec section 8) -/

/-- The 3-chunk scenario index: chunk_a = row 0 with vector `[1, 0]`,
chunk_b = row 1 with `[0, 1]`, chunk_c = row 2 with `[0.7, 0.7]`. -/
def scenarioStored : List Vec := [[1, 0], [0, 1], [7/10, 7/10]]

/-- The scenario query vector `[1, 0]`. -/
def scenarioQuery : Vec := [1, 0]

/-- The scenario candidate pool as returned by the index search:
descending score order `[chunk_a (1.0), chunk_c (0.7), chunk_b (0.0)]`. -/
def scenarioCands : List (ℕ × ℚ) := [(0, 1), (2, 7/10), (1, 0)]

/-- The scenario candidate vectors, row-aligned with `scenarioCands`. -/
def scenarioVecs : List Vec := [[1, 0], [7/10, 7/10], [0, 1]]

/-- Synthetic store for the hierarchical-fallback check: only chunk 0
belongs to section `"s1"`. -/
def hfStore : List Chunk :=
  [{ id := "c0", text := "t0", section_id := some "s1" },
   { id := "c1", text := "t1", section_id := some "s2" },
   { id := "c2", text := "t2", section_id := some "s2" }]

/-- Synthetic candidate pool for the hierarchical-fallback check. -/
def hfCands : List (ℕ × ℚ) := [(0, 1), (1, 2/3), (2, 1/3)]

/-- A chunk record present in the storage before a rebuild. -/
def oldChunk : Chunk := { id := "old", text := "old text", section_id := some "sOld" }

/-- A chunk record of the new ingestion run. -/
def newChunk : Chunk := { id := "new", text := "new text", section_id := some "s1" }

/-- A section record present in the storage before a rebuild. -/
def oldSec : SectionRec := { id := "sOld", text := "old section" }

/-- A section record of the new ingestion run. -/
def newSec : SectionRec := { id := "s1", text := "new section" }

/-- A storage directory holding a complete previously-built index
(all five artifacts) plus the new ingestion outputs, as found at the
start of a rebuild. -/
def fsPrior : FS :=
  { chunksFile := some [newChunk], sectionsFile := some [newSec]
    indexFile := some [[2]], storeFile := some [oldChunk]
    sIndexFile := some [[3]], sStoreFile := some [oldSec]
    metaFile := some { embeddings := 7, embedding_model := "old-model"
                       sections_embedded := 1 } }

/-- A storage directory whose persisted chunk index has dimension 3
(one stored row `[1, 0, 0]`), while the current embedding model in the
mismatch scenario has dimension 4. -/
def fsDim3 : FS := { fsNone with indexFile := some [[1, 0, 0]] }

/-! ## Helper lemmas -/

theorem npArgmaxGo_of_le (xs : List ℚ) : ∀ (bi i : ℕ) (bv : ℚ),
    (∀ y ∈ xs, y ≤ bv) → npArgmaxGo bi bv i xs = bi := by
  induction xs with
  | nil => intro bi i bv _; rfl
  | cons x t ih =>
    intro bi i bv h
    have hx : ¬ bv < x := not_lt.mpr (h x (List.mem_cons_self x t))
    simp only [npArgmaxGo, if_neg hx]
    exact ih bi (i + 1) bv (fun y hy => h y (List.mem_cons_of_mem x hy))

/-- `np.argmax` of a list whose head dominates is 0 (first occurrence of
the maximum). -/
theorem npArgmax_eq_zero (x : ℚ) (xs : List ℚ) (h : ∀ y ∈ xs, y ≤ x) :
    npArgmax (x :: xs) = 0 :=
  npArgmaxGo_of_le xs 0 1 x h

theorem nonIncr_cons (a : ℚ) (l : List ℚ) (h : nonIncr (a :: l) = true) :
    nonIncr l = true ∧ ∀ y ∈ l, y ≤ a := by
  induction l generalizing a with
  | nil => exact ⟨rfl, by simp⟩
  | cons b t ih =>
    have hsplit : (b ≤ a) ∧ nonIncr (b :: t) = true := by
      have := h
      simp only [nonIncr, Bool.and_eq_true, decide_eq_true_eq] at this
      exact this
    obtain ⟨hba, h2⟩ := hsplit
    obtain ⟨_, hall⟩ := ih b h2
    refine ⟨h2, ?_⟩
    intro y hy
    rcases List.mem_cons.mp hy with rfl | hy'
    · exact hba
    · exact (hall y hy').trans hba

theorem scoresMatch_length : ∀ (c : List (ℕ × ℚ)) (v : List Vec) (q : Vec),
    scoresMatch c v q = true → c.length = v.length := by
  intro c
  induction c with
  | nil => intro v q h; cases v with
    | nil => rfl
    | cons _ _ => simp [scoresMatch] at h
  | cons x cs ih =>
    intro v q h
    cases v with
    | nil => simp [scoresMatch] at h
    | cons vh vs =>
      simp only [scoresMatch, Bool.and_eq_true] at h
      simp [ih vs q h.2]

theorem scoresMatch_map : ∀ (c : List (ℕ × ℚ)) (v : List Vec) (q : Vec),
    scoresMatch c v q = true → v.map (fun w => dot w q) = c.map Prod.snd := by
  intro c
  induction c with
  | nil => intro v q h; cases v with
    | nil => rfl
    | cons _ _ => simp [scoresMatch] at h
  | cons x cs ih =>
    intro v q h
    cases v with
    | nil => simp [scoresMatch] at h
    | cons vh vs =>
      simp only [scoresMatch, Bool.and_eq_true, decide_eq_true_eq] at h
      simp [List.map_cons, ih vs q h.2, h.1]

/-- At `lam = 1` the MMR combination degenerates to the similarity row. -/
theorem zipWith_lambda_one : ∀ (l d : List ℚ), l.length = d.length →
    List.zipWith (fun s dd => 1 * s + (1 - 1) * (1 - dd)) l d = l := by
  intro l
  induction l with
  | nil => intro d _; rfl
  | cons x xs ih =>
    intro d h
    cases d with
    | nil => simp at h
    | cons y ys =>
      simp only [List.zipWith_cons_cons, List.length_cons, add_left_inj] at *
      rw [ih ys h]
      congr 1
      ring

/-- Every MMR iteration appends exactly one element to `selected`. -/
theorem mmrStep_selected (q : Vec) (lam : ℚ) (st : MMRState) :
    ∃ x, (mmrStep q lam st).selected = st.selected ++ [x] := by
  unfold mmrStep
  split
  · exact ⟨_, rfl⟩
  · exact ⟨_, rfl⟩

/-- The MMR loop only ever appends to `selected`. -/
theorem mmrLoop_selected_extends (q : Vec) (lam : ℚ) (topK : ℕ) :
    ∀ (fuel : ℕ) (st : MMRState),
    ∃ l, (mmrLoop q lam topK fuel st).selected = st.selected ++ l := by
  intro fuel
  induction fuel with
  | zero => intro st; exact ⟨[], by simp [mmrLoop]⟩
  | succ n ih =>
    intro st
    rw [mmrLoop]
    split
    · obtain ⟨l, hl⟩ := ih (mmrStep q lam st)
      obtain ⟨x, hx⟩ := mmrStep_selected q lam st
      exact ⟨[x] ++ l, by rw [hl, hx, List.append_assoc]⟩
    · exact ⟨[], by simp⟩

/-- With `lam = 1` and a candidate pool whose stored scores are the query
similarities, listed in nonincreasing order, every iteration of the MMR
loop removes the head of the current pool: the loop output appends a
prefix of the pool to whatever was already selected. -/
theorem mmrLoop_one (q : Vec) (topK : ℕ) :
    ∀ (fuel : ℕ) (c : List (ℕ × ℚ)) (v : List Vec) (sel : List ℕ) (selS : List ℚ),
    scoresMatch c v q = true → nonIncr (c.map Prod.snd) = true →
    ∃ m, mmrLoop q 1 topK fuel ⟨sel, selS, c, c.map Prod.fst, v⟩ =
      ⟨sel ++ (c.map Prod.fst).take m, selS ++ (c.map Prod.snd).take m,
       c.drop m, (c.drop m).map Prod.fst, v.drop m⟩ := by
  intro fuel
  induction fuel with
  | zero =>
    intro c v sel selS _ _
    exact ⟨0, by simp [mmrLoop]⟩
  | succ n ih =>
    intro c v sel selS hm hs
    by_cases hcond : (sel.length < min topK c.length ∧ c.map Prod.fst ≠ [])
    case neg =>
      refine ⟨0, ?_⟩
      rw [mmrLoop, if_neg hcond]
      simp
    case pos =>
      have hc : c ≠ [] := by
        intro h0
        rw [h0] at hcond
        exact hcond.2 rfl
      obtain ⟨p, c', rfl⟩ := List.exists_cons_of_ne_nil hc
      obtain ⟨g, s⟩ := p
      cases v with
      | nil => simp [scoresMatch] at hm
      | cons vh v' =>
        have hm2 : s = dot vh q ∧ scoresMatch c' v' q = true := by
          simpa [scoresMatch] using hm
        have hs2 := nonIncr_cons s (c'.map Prod.snd) (by simpa using hs)
        have hbest : npArgmax (s :: c'.map Prod.snd) = 0 :=
          npArgmax_eq_zero s (c'.map Prod.snd) hs2.2
        have hlen : ((g, s) :: c').length = (vh :: v').length :=
          scoresMatch_length _ _ _ hm
        have hmap : (vh :: v').map (fun w => dot w q) = ((g, s) :: c').map Prod.snd :=
          scoresMatch_map _ _ _ hm
        have hstep :
            mmrStep q 1 ⟨sel, selS, (g, s) :: c', ((g, s) :: c').map Prod.fst, vh :: v'⟩
              = ⟨sel ++ [g], selS ++ [s], c', c'.map Prod.fst, v'⟩ := by
          by_cases hsel : sel = []
          · subst hsel
            simp [mmrStep, hbest, List.eraseIdx]
          · simp only [mmrStep, if_neg hsel]
            rw [hmap]
            split
            · rw [zipWith_lambda_one _ _ (by simp)]
              simp [hbest, List.eraseIdx]
            · rw [zipWith_lambda_one _ _ (by simpa using hlen)]
              simp [hbest, List.eraseIdx]
        rw [mmrLoop, if_pos hcond, hstep]
        obtain ⟨m, hrec⟩ := ih c' v' (sel ++ [g]) (selS ++ [s]) hm2.2 hs2.1
        refine ⟨m + 1, ?_⟩
        rw [hrec]
        simp [List.take_succ_cons, List.drop_succ_cons, List.append_assoc]

/-- For every `lam`, the very first MMR pick is `candidates[np.argmax(scores)]`:
the candidate with the highest raw relevance score, ties broken by lowest
candidate ordinal. -/
theorem mmrSelect_head (cands : List (ℕ × ℚ)) (vecs : List Vec) (q : Vec) (lam : ℚ)
    (topK : ℕ) (ht : 0 < topK) (hc : cands ≠ []) :
    (mmrSelect cands vecs q lam topK).selected.headD 0 =
      (cands.getD (npArgmax (cands.map Prod.snd)) (0, 0)).1 := by
  obtain ⟨f, rfl⟩ : ∃ f, topK = f + 1 := ⟨topK - 1, by omega⟩
  unfold mmrSelect
  have hcond : (([] : List ℕ).length < min (f + 1) cands.length ∧
      cands.map Prod.fst ≠ []) := by
    constructor
    · have := List.length_pos.mpr hc
      simp only [List.length_nil]
      omega
    · simpa using hc
  rw [mmrLoop, if_pos hcond]
  obtain ⟨l, hl⟩ := mmrLoop_selected_extends q lam (f + 1) f
    (mmrStep q lam ⟨[], [], cands, cands.map Prod.fst, vecs⟩)
  rw [hl]
  have hsel : (mmrStep q lam ⟨[], [], cands, cands.map Prod.fst, vecs⟩).selected
      = [(cands.getD (npArgmax (cands.map Prod.snd)) (0, 0)).1] := by
    simp [mmrStep]
  rw [hsel]
  simp

/-! ## Norm algebra for the HyDE query vector -/

theorem normSq_cons (x : ℚ) (l : List ℚ) : normSq (x :: l) = x * x + normSq l := by
  simp [normSq, dot]

theorem normSq_nonneg (l : List ℚ) : 0 ≤ normSq l := by
  induction l with
  | nil => simp [normSq, dot]
  | cons x t ih =>
    rw [normSq_cons]
    exact add_nonneg (mul_self_nonneg x) ih

theorem mean2_self (u : Vec) : mean2 u u = u := by
  induction u with
  | nil => rfl
  | cons a t ih =>
    show ((a + a) / 2) :: mean2 t t = a :: t
    rw [ih, show (a + a) / 2 = a by ring]

theorem normSq_mean2 : ∀ (u v : Vec), u.length = v.length →
    normSq (mean2 u v) = (normSq u + normSq v) / 2 - normSq (vsub u v) / 4 := by
  intro u
  induction u with
  | nil =>
    intro v h
    cases v with
    | nil => simp [mean2, vsub, normSq, dot]
    | cons b v' => simp at h
  | cons a u' ih =>
    intro v h
    cases v with
    | nil => simp at h
    | cons b v' =>
      have hih := ih v' (by simpa using h)
      show normSq (((a + b) / 2) :: mean2 u' v') = _
      rw [normSq_cons, hih, normSq_cons a u', normSq_cons b v',
        show vsub (a :: u') (b :: v') = (a - b) :: vsub u' v' from rfl, normSq_cons]
      ring

theorem normSq_vsub_self (u : Vec) : normSq (vsub u u) = 0 := by
  induction u with
  | nil => simp [vsub, normSq, dot]
  | cons a t ih =>
    show normSq ((a - a) :: vsub t t) = 0
    rw [normSq_cons, ih]
    ring

theorem eq_of_normSq_vsub_eq_zero : ∀ (u v : Vec), u.length = v.length →
    normSq (vsub u v) = 0 → u = v := by
  intro u
  induction u with
  | nil =>
    intro v h _
    cases v with
    | nil => rfl
    | cons b v' => simp at h
  | cons a u' ih =>
    intro v h h0
    cases v with
    | nil => simp at h
    | cons b v' =>
      have h0' : (a - b) * (a - b) + normSq (vsub u' v') = 0 := by
        rw [← normSq_cons]
        exact h0
      have h1 : 0 ≤ (a - b) * (a - b) := mul_self_nonneg _
      have h2 : 0 ≤ normSq (vsub u' v') := normSq_nonneg _
      have hab : a = b := by
        have : (a - b) * (a - b) = 0 := by linarith
        have := sub_eq_zero.mp (mul_self_eq_zero.mp this)
        linarith
      have htl : u' = v' := ih v' (by simpa using h) (by linarith)
      rw [hab, htl]

/-! ## Claim theorems -/

/-- Claim C1, behavior of the code at the failing input: in the 3-chunk
scenario (vectors `[1,0]`, `[0,1]`, `[0.7,0.7]`, query `[1,0]`,
`top_k = 2`, `mmr_lambda = 0.0`) the second pick of `VectorStore.search`
is chunk_c (row 2), not chunk_b (row 1) as the claim states.  The
selected ids were already deleted from `cand_idxs` before the
`si in cand_idxs` membership test, so `selected_vecs` is always empty,
the diversity term is always zero, and at `lambda = 0` the MMR score is
the constant 1, making `argmax` pick the first remaining candidate
(chunk_c). -/
theorem mmr_lambda_zero_scenario :
    (searchPipeline scenarioStored scenarioQuery 2 0 24).selected = [0, 2] ∧
    (searchPipeline scenarioStored scenarioQuery 2 0 24).selected ≠ [0, 1] := by
  have h : (searchPipeline scenarioStored scenarioQuery 2 0 24).selected = [0, 2] := by
    norm_num [searchPipeline, mmrSelect, mmrLoop, mmrStep, npArgmax, npArgmaxGo,
      maxList, pyIndex, dot, indexSearch, sortDesc, insertDesc, dropSentinel,
      requestedKSimple, scenarioStored, scenarioQuery, List.range_succ, Int.toNat,
      List.zipWith, List.replicate]
    decide
  refine ⟨h, ?_⟩
  rw [h]
  decide

/-- Claim C2, behavior of the code at the failing input: on the 3-chunk
pool with `top_k = 5`, the MMR loop of `VectorStore.search` returns only
2 results, not `min(top_k, |initial candidates|) = 3`.  The loop guard
compares `len(selected)` against `min(top_k, len(candidates))` where
`candidates` is the shrinking pool, so the loop runs
`min(top_k, ceil(n/2))` times. -/
theorem mmr_selection_count_bug :
    (dropSentinel (indexSearch scenarioStored scenarioQuery
        (requestedKSimple 5 24 3))).length = 3 ∧
    (searchPipeline scenarioStored scenarioQuery 5 (1/2) 24).selected.length = 2 ∧
    (2 : ℕ) ≠ min 5 3 := by
  refine ⟨?_, ?_, by decide⟩
  · norm_num [dropSentinel, indexSearch, requestedKSimple, scenarioStored,
      scenarioQuery, sortDesc, insertDesc, dot, List.range_succ, Int.toNat]
  · norm_num [searchPipeline, mmrSelect, mmrLoop, mmrStep, npArgmax, npArgmaxGo,
      maxList, pyIndex, dot, indexSearch, sortDesc, insertDesc, dropSentinel,
      requestedKSimple, scenarioStored, scenarioQuery, List.range_succ, Int.toNat,
      List.zipWith, List.replicate]
    decide

/-- Claim C3: with `mmr_lambda = 1.0`, the MMR selection of
`VectorStore.search` equals the pure-relevance descending order of the
candidates — for a pool listed in nonincreasing score order (as the flat
index returns it, ties already broken by lowest row index) with scores
equal to the query similarities, the selection is a prefix of the pool;
for every `mmr_lambda` the very first pick is the candidate with the
highest raw relevance score (first `argmax`, i.e. lowest ordinal on
ties); and in the 3-chunk scenario with `top_k = 2`, `mmr_lambda = 1.0`
the selection is `[chunk_a (score 1.0), chunk_c (score 0.7)]`. -/
theorem mmr_lambda_one_pure_relevance
    (cands : List (ℕ × ℚ)) (vecs : List Vec) (q : Vec) (topK : ℕ)
    (hmatch : scoresMatch cands vecs q = true)
    (hsorted : nonIncr (cands.map Prod.snd) = true) :
    (∃ m, (mmrSelect cands vecs q 1 topK).selected = (cands.map Prod.fst).take m ∧
       (mmrSelect cands vecs q 1 topK).selectedScores = (cands.map Prod.snd).take m) ∧
    (∀ lam : ℚ, 0 < topK → cands ≠ [] →
       (mmrSelect cands vecs q lam topK).selected.headD 0 =
         (cands.getD (npArgmax (cands.map Prod.snd)) (0, 0)).1) ∧
    ((searchPipeline scenarioStored scenarioQuery 2 1 24).selected = [0, 2] ∧
     (searchPipeline scenarioStored scenarioQuery 2 1 24).selectedScores = [1, 7/10]) := by
  refine ⟨?_, ?_, ?_, ?_⟩
  · obtain ⟨m, hm⟩ := mmrLoop_one q topK topK cands vecs [] [] hmatch hsorted
    refine ⟨m, ?_, ?_⟩ <;> unfold mmrSelect <;> rw [hm] <;> simp
  · intro lam ht hc
    exact mmrSelect_head cands vecs q lam topK ht hc
  · norm_num [searchPipeline, mmrSelect, mmrLoop, mmrStep, npArgmax, npArgmaxGo,
      maxList, pyIndex, dot, indexSearch, sortDesc, insertDesc, dropSentinel,
      requestedKSimple, scenarioStored, scenarioQuery, List.range_succ, Int.toNat,
      List.zipWith, List.replicate]
    decide
  · norm_num [searchPipeline, mmrSelect, mmrLoop, mmrStep, npArgmax, npArgmaxGo,
      maxList, pyIndex, dot, indexSearch, sortDesc, insertDesc, dropSentinel,
      requestedKSimple, scenarioStored, scenarioQuery, List.range_succ, Int.toNat,
      List.zipWith, List.replicate]
    simp

/-- Witness for C3 at the 3-chunk scenario pool. -/
theorem mmr_lambda_one_pure_relevance_witness :
    (∃ m, (mmrSelect scenarioCands scenarioVecs scenarioQuery 1 2).selected =
          (scenarioCands.map Prod.fst).take m ∧
       (mmrSelect scenarioCands scenarioVecs scenarioQuery 1 2).selectedScores =
          (scenarioCands.map Prod.snd).take m) ∧
    (∀ lam : ℚ, 0 < 2 → scenarioCands ≠ [] →
       (mmrSelect scenarioCands scenarioVecs scenarioQuery lam 2).selected.headD 0 =
         (scenarioCands.getD (npArgmax (scenarioCands.map Prod.snd)) (0, 0)).1) ∧
    ((searchPipeline scenarioStored scenarioQuery 2 1 24).selected = [0, 2] ∧
     (searchPipeline scenarioStored scenarioQuery 2 1 24).selectedScores = [1, 7/10]) :=
  mmr_lambda_one_pure_relevance scenarioCands scenarioVecs scenarioQuery 2
    (by norm_num [scoresMatch, dot, scenarioCands, scenarioVecs, scenarioQuery])
    (by norm_num [nonIncr, scenarioCands])

/-- Claim C4: in `VectorStore.search_advanced` with hierarchical
filtering active (truthy allowed-section set), if restricting the chunk
candidates to the allowed sections would leave fewer than
`max(top_k * 2, mmr_candidates)` candidates, the filter is discarded and
the unfiltered pool is used; if at least that many survive, exactly the
chunks whose `section_id` lies in the allowed set are kept. -/
theorem hierarchical_filter_fallback (cands : List (ℕ × ℚ)) (store : List Chunk)
    (allowed : List String) (topK mmrCands : ℕ) (hact : allowed ≠ []) :
    ((hierFiltered store allowed cands).length < max (topK * 2) mmrCands →
       hierFilter cands store allowed topK mmrCands = cands) ∧
    (max (topK * 2) mmrCands ≤ (hierFiltered store allowed cands).length →
       hierFilter cands store allowed topK mmrCands = hierFiltered store allowed cands ∧
       ∀ p ∈ hierFilter cands store allowed topK mmrCands,
         ∃ s, (store.getD p.1 dfltChunk).section_id = some s ∧ s ∈ allowed) := by
  constructor
  · intro hlt
    unfold hierFilter
    rw [if_neg hact, if_neg (by omega)]
  · intro hge
    have heq : hierFilter cands store allowed topK mmrCands
        = hierFiltered store allowed cands := by
      unfold hierFilter
      rw [if_neg hact, if_pos hge]
    refine ⟨heq, ?_⟩
    intro p hp
    rw [heq] at hp
    have hok : sectionOk store allowed p = true := (List.mem_filter.mp hp).2
    unfold sectionOk at hok
    cases hcase : (store.getD p.1 dfltChunk).section_id with
    | none => rw [hcase] at hok; simp at hok
    | some s =>
      rw [hcase] at hok
      exact ⟨s, rfl, by simpa using hok⟩

/-- Witness for C4: the spec's synthetic case — filtering would leave
exactly 1 of 3 candidates with `top_k = 5` (threshold
`max(10, 24) = 24`), so the filter is discarded and the unfiltered pool
is used. -/
theorem hierarchical_filter_fallback_witness :
    hierFilter hfCands hfStore ["s1"] 5 24 = hfCands ∧
    (hierFiltered hfStore ["s1"] hfCands).length = 1 :=
  ⟨(hierarchical_filter_fallback hfCands hfStore ["s1"] 5 24 (by decide)).1
      (by decide),
    by decide⟩

/-- Claim C5, counterexample: for `top_k = 1`, `mmr_candidates = 24` and
a large index, `search_advanced` requests `max(8, 48) = 48` rows, not
`max(8, 24) = 24` as the claim's "same tunable floor" reading states —
the advanced floor is `mmr_candidates * 2`, not `mmr_candidates`. -/
theorem advanced_request_floor_counterexample :
    requestedKAdvanced 1 24 1000 = 48 ∧ specKAdvanced 1 24 1000 = 24 ∧
    requestedKAdvanced 1 24 1000 ≠ specKAdvanced 1 24 1000 := by
  decide

/-- Claim C5 as amended: the simple search requests
`min(max(top_k * 4, mmr_candidates), ntotal)` rows, the advanced search
`min(max(top_k * 8, mmr_candidates * 2), ntotal)` rows (floor
`mmr_candidates * 2`, default 48); both are clamped to the index size;
and the candidate list keeps exactly the non-sentinel rows (index `≠ -1`),
as `(row, score)` pairs. -/
theorem candidate_request_amended (t m n : ℕ) (rows : List (ℤ × ℚ)) :
    requestedKSimple t m n = min (max (t * 4) m) n ∧
    requestedKAdvanced t m n = min (max (t * 8) (m * 2)) n ∧
    requestedKSimple t m n ≤ n ∧ requestedKAdvanced t m n ≤ n ∧
    (∀ p ∈ dropSentinel rows, ∃ r ∈ rows, r.1 ≠ -1 ∧ p = (r.1.toNat, r.2)) ∧
    (∀ r ∈ rows, r.1 ≠ -1 → (r.1.toNat, r.2) ∈ dropSentinel rows) := by
  refine ⟨rfl, rfl, min_le_right _ _, min_le_right _ _, ?_, ?_⟩
  · intro p hp
    unfold dropSentinel at hp
    obtain ⟨r, hr, rfl⟩ := List.mem_map.mp hp
    have hf := List.mem_filter.mp hr
    exact ⟨r, hf.1, by simpa using hf.2, rfl⟩
  · intro r hr hne
    unfold dropSentinel
    exact List.mem_map.mpr ⟨r, List.mem_filter.mpr ⟨hr, by simpa using hne⟩, rfl⟩

/-- Witness for C5's amended sentinel property: the non-sentinel row
`(2, 1)` of a raw result containing a `-1` row survives into the
candidate list. -/
theorem candidate_request_amended_witness :
    ((2 : ℕ), (1 : ℚ)) ∈ dropSentinel [((-1 : ℤ), (0 : ℚ)), (2, 1)] :=
  (candidate_request_amended 1 24 1000 [((-1 : ℤ), (0 : ℚ)), (2, 1)]).2.2.2.2.2
    (2, 1) (by decide) (by decide)

/-- Claim C6, counterexample: two orthogonal unit embeddings (question
and hypothetical answer) average to a vector of squared norm `1/2` — the
HyDE query vector passed to `index.search` is not a unit vector. -/
theorem hyde_mean_not_unit :
    normSq ([1, 0] : Vec) = 1 ∧ normSq ([0, 1] : Vec) = 1 ∧
    normSq (hydeQueryVec [1, 0] [0, 1]) = 1/2 ∧
    normSq (hydeQueryVec [1, 0] [0, 1]) ≠ 1 := by
  refine ⟨?_, ?_, ?_, ?_⟩ <;> norm_num [normSq, dot, hydeQueryVec, mean2]

/-- Claim C6 as amended: each individual query embedding is normalized,
but with HyDE the vector passed to `index.search` is the plain
componentwise mean of the two unit embeddings, with no re-normalization:
its squared norm is `1 - ‖u - v‖² / 4 ≤ 1`, and it is a unit vector
exactly when the two embeddings coincide. -/
theorem hyde_mean_norm (u v : Vec) (hlen : u.length = v.length)
    (hu : normSq u = 1) (hv : normSq v = 1) :
    normSq (hydeQueryVec u v) = 1 - normSq (vsub u v) / 4 ∧
    normSq (hydeQueryVec u v) ≤ 1 ∧
    (normSq (hydeQueryVec u v) = 1 ↔ u = v) := by
  have hkey : normSq (hydeQueryVec u v) = 1 - normSq (vsub u v) / 4 := by
    unfold hydeQueryVec
    rw [normSq_mean2 u v hlen, hu, hv]
    ring
  have hnn := normSq_nonneg (vsub u v)
  refine ⟨hkey, by rw [hkey]; linarith, ?_, ?_⟩
  · intro h1
    have h0 : normSq (vsub u v) = 0 := by
      rw [hkey] at h1
      linarith
    exact eq_of_normSq_vsub_eq_zero u v hlen h0
  · intro huv
    rw [hkey, huv, normSq_vsub_self]
    ring

/-- Witness for C6's amended statement at the orthogonal pair. -/
theorem hyde_mean_norm_witness :
    normSq (hydeQueryVec [1, 0] [0, 1]) = 1 - normSq (vsub [1, 0] [0, 1]) / 4 ∧
    normSq (hydeQueryVec [1, 0] [0, 1]) ≤ 1 ∧
    (normSq (hydeQueryVec [1, 0] [0, 1]) = 1 ↔ ([1, 0] : Vec) = [0, 1]) :=
  hyde_mean_norm [1, 0] [0, 1] rfl (by norm_num [normSq, dot])
    (by norm_num [normSq, dot])

/-- Claim C7, counterexample: with a complete previously-built index on
disk, a provider failure while encoding the *section* texts aborts the
build, but only after the chunk index file has already been overwritten
in place with the new embeddings — the previously-built chunk index is
not left as it was. -/
theorem build_section_failure_mutates_chunk_index :
    (VectorStore.build "new-model" (Except.ok [[1]]) (Except.error "provider down")
        fsPrior).2 = Except.error "provider down" ∧
    (VectorStore.build "new-model" (Except.ok [[1]]) (Except.error "provider down")
        fsPrior).1.indexFile = some [[1]] ∧
    fsPrior.indexFile = some [[2]] ∧
    (VectorStore.build "new-model" (Except.ok [[1]]) (Except.error "provider down")
        fsPrior).1 ≠ fsPrior := by
  refine ⟨rfl, rfl, rfl, ?_⟩
  intro h
  have hidx : fsPrior.indexFile = some [[1]] := by
    rw [← h]
    rfl
  norm_num [fsPrior] at hidx

/-- Claim C7 as amended: a provider failure while encoding the *chunk*
texts (the first encode call) aborts the build with nothing persisted —
every artifact unchanged; a provider failure while encoding the
*section* texts leaves the section index, section store and metadata
unchanged but has already overwritten the chunk index and chunk store in
place — the build is not atomic. -/
theorem build_failure_atomicity_amended (name e : String)
    (embS : Except String (List Vec)) (fs : FS) (cs : List Chunk)
    (ss : List SectionRec) (emb : List Vec)
    (hc : fs.chunksFile = some cs) (hsec : fs.sectionsFile = some ss)
    (hne : ss ≠ []) :
    ((VectorStore.build name (Except.error e) embS fs).1 = fs ∧
     (VectorStore.build name (Except.error e) embS fs).2 = Except.error e) ∧
    ((VectorStore.build name (Except.ok emb) (Except.error e) fs).1.sIndexFile
        = fs.sIndexFile ∧
     (VectorStore.build name (Except.ok emb) (Except.error e) fs).1.sStoreFile
        = fs.sStoreFile ∧
     (VectorStore.build name (Except.ok emb) (Except.error e) fs).1.metaFile
        = fs.metaFile ∧
     (VectorStore.build name (Except.ok emb) (Except.error e) fs).1.indexFile
        = some emb ∧
     (VectorStore.build name (Except.ok emb) (Except.error e) fs).1.storeFile
        = some cs ∧
     (VectorStore.build name (Except.ok emb) (Except.error e) fs).2
        = Except.error e) := by
  have hempty : ss.isEmpty = false := by
    cases ss with
    | nil => exact absurd rfl hne
    | cons _ _ => rfl
  unfold VectorStore.build
  rw [hc, hsec]
  simp [hempty]

/-- Witness for C7's amended statement at the concrete pre-populated
storage directory. -/
theorem build_failure_atomicity_amended_witness :
    ((VectorStore.build "m" (Except.error "boom") (Except.ok [[5]]) fsPrior).1
        = fsPrior ∧
     (VectorStore.build "m" (Except.error "boom") (Except.ok [[5]]) fsPrior).2
        = Except.error "boom") ∧
    ((VectorStore.build "m" (Except.ok [[1]]) (Except.error "boom") fsPrior).1.sIndexFile
        = fsPrior.sIndexFile ∧
     (VectorStore.build "m" (Except.ok [[1]]) (Except.error "boom") fsPrior).1.sStoreFile
        = fsPrior.sStoreFile ∧
     (VectorStore.build "m" (Except.ok [[1]]) (Except.error "boom") fsPrior).1.metaFile
        = fsPrior.metaFile ∧
     (VectorStore.build "m" (Except.ok [[1]]) (Except.error "boom") fsPrior).1.indexFile
        = some [[1]] ∧
     (VectorStore.build "m" (Except.ok [[1]]) (Except.error "boom") fsPrior).1.storeFile
        = some [newChunk] ∧
     (VectorStore.build "m" (Except.ok [[1]]) (Except.error "boom") fsPrior).2
        = Except.error "boom") :=
  build_failure_atomicity_amended "m" "boom" (Except.ok [[5]]) fsPrior [newChunk]
    [newSec] [[1]] rfl rfl (by decide)

/-- Claim C8, counterexample: loading for search performs no dimension
check — with a persisted index of dimension 3 while the current embedding
model has dimension 4, `_ensure_loaded` succeeds and search proceeds; no
dimension-mismatch error is raised at load time. -/
theorem load_ignores_dimension :
    VectorStore.ensureLoaded none fsDim3 = Except.ok [[1, 0, 0]] ∧
    (([[1, 0, 0]] : List Vec).headD []).length = 3 ∧
    (([[1, 0, 0]] : List Vec).headD []).length ≠ 4 :=
  ⟨rfl, rfl, by decide⟩

/-- Claim C8 as amended: `_ensure_loaded` succeeds whenever a cached
index or an index file exists, whatever the stored index's dimension —
the persisted dimension and the current model dimension are never
compared on load. -/
theorem ensure_loaded_no_dim_check (cached : Option (List Vec)) (fs : FS)
    (idx : List Vec) (h : fs.indexFile = some idx) :
    ∃ v, VectorStore.ensureLoaded cached fs = Except.ok v := by
  cases cached with
  | some c => exact ⟨c, rfl⟩
  | none =>
    refine ⟨idx, ?_⟩
    unfold VectorStore.ensureLoaded
    rw [h]

/-- Witness for C8's amended statement: the dimension-3 index loads
although the current model dimension is 4. -/
theorem ensure_loaded_no_dim_check_witness :
    ∃ v, VectorStore.ensureLoaded none fsDim3 = Except.ok v :=
  ensure_loaded_no_dim_check none fsDim3 [[1, 0, 0]] rfl

/-- Claim C9: `VectorStore.search` fails with the index-not-built error
exactly when no chunk index file exists and no index is cached in
memory; otherwise it does not fail for this reason and returns an
ordered result list. -/
theorem search_fails_iff_index_missing (cached : Option (List Vec)) (fs : FS)
    (q : Vec) (topK mmrCands : ℕ) (lam : ℚ) :
    (VectorStore.search cached fs q topK mmrCands lam =
        Except.error "FAISS index missing; build the index first" ↔
      (cached = none ∧ fs.indexFile = none)) ∧
    (¬ (cached = none ∧ fs.indexFile = none) →
      ∃ res, VectorStore.search cached fs q topK mmrCands lam = Except.ok res) := by
  unfold VectorStore.search VectorStore.ensureLoaded
  cases cached with
  | some c => simp
  | none =>
    cases hidx : fs.indexFile with
    | none => simp
    | some idx => simp

/-- Witness for C9: with no index file and nothing cached, search fails
with the index-not-built error. -/
theorem search_fails_iff_index_missing_witness :
    VectorStore.search none fsNone [1] 1 24 (1/2) =
      Except.error "FAISS index missing; build the index first" :=
  (search_fails_iff_index_missing none fsNone [1] 1 24 (1/2)).1.mpr ⟨rfl, rfl⟩

/-- Claim C10: `Indexer._run` always ends with status `"error"`: the
call `vs.build(progress_cb=cb)` passes a keyword argument that
`VectorStore.build` (signature `def build(self)`) does not accept, so
every run raises `TypeError`, which the `except` clause turns into
status `"error"` — when no index file exists, `Indexer.start` never
reaches status `"ready"` through the background build, whatever the
ingestion and build outcomes. -/
theorem indexer_run_always_errors :
    (∀ (ing : Except String Unit) (bld : Except String ℕ),
       Indexer.run ing bld = IStatus.error) ∧
    (∀ (ing : Except String Unit) (bld : Except String ℕ),
       Indexer.startFinal false ing bld ≠ IStatus.ready) ∧
    callAccepted runBuildCallKwargs buildKwParams = false := by
  have hcall : callAccepted runBuildCallKwargs buildKwParams = false := rfl
  have hrun : ∀ (ing : Except String Unit) (bld : Except String ℕ),
      Indexer.run ing bld = IStatus.error := by
    intro ing bld
    cases ing with
    | error e => rfl
    | ok _ => simp [Indexer.run, hcall]
  refine ⟨hrun, ?_, hcall⟩
  intro ing bld
  simp [Indexer.startFinal, hrun ing bld]

end PdfQa
